import Mathlib

/-!
# Verification of the software-inventory-exporter charm

A shallow embedding of the repository's two source modules:

* `lib/charms/software_inventory_exporter/v0/software_inventory.py`
  (the relation library: `ExporterConfig`, `SoftwareInventoryConsumer`,
  `SoftwareInventoryProvider`), and
* `src/charm.py` (`SoftwareInventoryExporterCharm`).

Relation data buckets are Python dicts from string keys to string values;
they are modelled as insertion-ordered association lists, with operations
(`dictGet`, `dictSet`, `dictUpdate`, `dictGetItem`) matching Python dict
semantics (`d.get(k)`, `d[k] = v`, `d.update(other)`, `d[k]` with KeyError).
Fallible reads return `Except`, where the error value carries the key of
the Python `KeyError`.  The charm's event handlers are modelled as lists of
primitive actions interpreted over a machine state, so that ordering of
side effects within a handler (render config, restart service, publish,
assess status) is visible to the theorems.
-/

namespace SoftwareInventory

/-- Equality of `Except` results is decidable when both components are,
so concrete runs of the fallible consumer code can be checked by
`decide`. -/
instance {ε α : Type} [DecidableEq ε] [DecidableEq α] :
    DecidableEq (Except ε α) := fun x y =>
  match x, y with
  | .error e, .error e' =>
      if h : e = e' then .isTrue (by rw [h]) else .isFalse (by simp [h])
  | .error _, .ok _ => .isFalse (by simp)
  | .ok _, .error _ => .isFalse (by simp)
  | .ok a, .ok a' =>
      if h : a = a' then .isTrue (by rw [h]) else .isFalse (by simp [h])

/-- A Python `dict[str, str]`: insertion-ordered association list with
no duplicate keys (Python dicts cannot hold duplicate keys). -/
abbrev PyDict := List (String × String)

/-- Python `d.get(k)`: the value at the first matching key, or `None`. -/
def dictGet : PyDict → String → Option String
  | [], _ => none
  | (k0, v0) :: rest, k => if k0 = k then some v0 else dictGet rest k

/-- Python `d[k] = v`: replace the value of an existing key in place,
otherwise append the new pair at the end (insertion order). -/
def dictSet : PyDict → String → String → PyDict
  | [], k, v => [(k, v)]
  | (k0, v0) :: rest, k, v =>
      if k0 = k then (k, v) :: rest else (k0, v0) :: dictSet rest k v

/-- Python `d[k]`: the value at `k`, or a `KeyError` carrying the key. -/
def dictGetItem (d : PyDict) (k : String) : Except String String :=
  match dictGet d k with
  | some v => .ok v
  | none => .error k

/-- The key list of a dict, in insertion order (Python `d.keys()`). -/
def dictKeys (d : PyDict) : List String := d.map Prod.fst

/-- Python truthiness-based `x or y` on optional strings: `None` and the
empty string are falsy, so they fall through to `y`. -/
def pyOr (x y : Option String) : Option String :=
  match x with
  | some s => if s = "" then y else some s
  | none => y

/-- `ExporterConfig` dataclass of `software_inventory.py`: fields in
declaration order `hostname`, `port`, `model`, `ingress_ip`.  The Python
field `ingress_ip : str = ""` is in practice given either a string or
`None` (by `all_exporters`), so it is modelled as `Option String` with
`none` standing for Python `None` and default `some ""` for the
dataclass default `""`. -/
structure ExporterConfig where
  hostname : String
  port : String
  model : String
  ingress_ip : Option String := some ""
deriving DecidableEq, Repr

/-- `dataclasses.asdict`: the fields as a dict in declaration order.
Values are Python objects (here: strings or `None`). -/
def ExporterConfig.asdict (c : ExporterConfig) : List (String × Option String) :=
  [("hostname", some c.hostname), ("port", some c.port),
   ("model", some c.model), ("ingress_ip", c.ingress_ip)]

/-- Python `d.update(other)`: write each of `other`'s pairs into `d` in
order.  The transport (`ops` relation data) only accepts string values;
every value this library writes is a string (`ingress_ip` is always its
default `some ""` on the publish path), so the `none` branch is
unreachable in the modelled code paths. -/
def dictUpdate (d : PyDict) (other : List (String × Option String)) : PyDict :=
  other.foldl
    (fun acc kv =>
      match kv.2 with
      | some v => dictSet acc kv.1 v
      | none => acc)
    d

/-- Writing a list of string-valued pairs in order (the all-`some` case
of `dictUpdate`, used to state and prove overwrite lemmas). -/
def dictSetMany (d : PyDict) (kvs : PyDict) : PyDict :=
  kvs.foldl (fun acc kv => dictSet acc kv.1 kv.2) d

/-- One relation of the configured name, as seen by this unit:
the local unit's data bucket (written by the provider) and the remote
units' data buckets in the transport's enumeration order (read by the
consumer). -/
structure Relation where
  localData : PyDict
  remoteUnits : List PyDict
deriving DecidableEq, Repr

/-- Ambient context the library reads from the runtime: the local
machine's hostname (`socket.gethostname()`), the model name
(`self.model.name`), the charm configuration and the optionally attached
snap resource (its path and size, `none` when `fetch` raises
`ModelError`). -/
structure Env where
  hostname : String
  modelName : String
  bind_address : String
  port : Int
  resource : Option (String × Nat)
deriving DecidableEq, Repr

/-- The mutable fields of `SoftwareInventoryProvider`
(`self._port`, `self._bound_address`). -/
structure ProviderState where
  _port : String
  _bound_address : String
deriving DecidableEq, Repr

/-- The provider together with the relations currently matching its
relation name (`self.model.relations[self.relation_name]`). -/
structure ProviderWorld where
  provider : ProviderState
  relations : List Relation
deriving DecidableEq, Repr

/-- `SoftwareInventoryProvider._update_relation_data`: build an
`ExporterConfig` from the current hostname, port and model (the
`ingress_ip` field keeps its dataclass default) and `update` the local
unit's bucket of the given relation with its `asdict`.  The bucket write
is interpreted here as a plain dict store; see
`_update_relation_data_databag` below for the same source line under the
transport's own write semantics, where assigning the empty string
removes a key.  The two interpretations agree on every key written with
a non-empty value and differ exactly on `ingress_ip`, whose written
value is always `""`. -/
def _update_relation_data (env : Env) (s : ProviderState) (r : Relation) : Relation :=
  let host := env.hostname
  let relation_data : ExporterConfig :=
    { model := env.modelName, hostname := host, port := s._port }
  { r with localData := dictUpdate r.localData relation_data.asdict }

/-- Python `del d[k]`: drop the entry for `k` (a dict holds at most one
entry per key; this removes every occurrence, which coincides on
well-formed dicts). -/
def dictRemove : PyDict → String → PyDict
  | [], _ => []
  | (k0, v0) :: rest, k =>
      if k0 = k then dictRemove rest k else (k0, v0) :: dictRemove rest k

/-- The write operation of the relation-data transport
(`ops.RelationDataContent.__setitem__`): assigning the empty string to a
key removes the key from the databag entirely — matching Juju, where
`relation-set key=` deletes the key — and any other value is stored. -/
def databagSet (d : PyDict) (k v : String) : PyDict :=
  if v = "" then dictRemove d k else dictSet d k v

/-- `RelationDataContent.update(other)`: `MutableMapping.update` performs
one `__setitem__` per pair, in order (the `none` branch is unreachable:
every value this library writes is a string). -/
def databagUpdate (d : PyDict) (other : List (String × Option String)) : PyDict :=
  other.foldl
    (fun acc kv =>
      match kv.2 with
      | some v => databagSet acc kv.1 v
      | none => acc)
    d

/-- `SoftwareInventoryProvider._update_relation_data` with the bucket
write carried out by the transport's `databagSet` (empty-string writes
delete the key).  The key-set property of the published bucket is stated
against this version, since it is what the relation store actually holds
after `relation.data[self.charm.unit].update(asdict(relation_data))`. -/
def _update_relation_data_databag (env : Env) (s : ProviderState) (r : Relation) : Relation :=
  let host := env.hostname
  let relation_data : ExporterConfig :=
    { model := env.modelName, hostname := host, port := s._port }
  { r with localData := databagUpdate r.localData relation_data.asdict }

/-- `SoftwareInventoryProvider.update_consumers`: store the new port and
bound address, then republish into every relation of the configured
name. -/
def update_consumers (env : Env) (port bound_address : String)
    (w : ProviderWorld) : ProviderWorld :=
  let s : ProviderState := { _port := port, _bound_address := bound_address }
  { provider := s, relations := w.relations.map (_update_relation_data env s) }

/-- A sequence of `update_consumers` calls, oldest first. -/
def runCalls (env : Env) (w : ProviderWorld) (calls : List (String × String)) :
    ProviderWorld :=
  calls.foldl (fun acc c => update_consumers env c.1 c.2 acc) w

/-- Fail-fast effectful map: Lean rendering of a Python loop that appends
`f x` for each element and raises out of the whole loop on the first
error. -/
def mapME (f : α → Except String β) : List α → Except String (List β)
  | [] => .ok []
  | x :: xs =>
      match f x with
      | .error e => .error e
      | .ok y =>
          match mapME f xs with
          | .error e => .error e
          | .ok ys => .ok (y :: ys)

/-- The body of `all_exporters`' inner loop for one remote unit:
`ingress` from `ingress-address` falling back (Python `or`) to
`private-address`, then an `ExporterConfig` from the required keys
`port`, `hostname`, `model` (keyword arguments evaluate left to right,
so a missing key raises `KeyError` in that order). -/
def exporterOfUnit (remote_data : PyDict) : Except String ExporterConfig :=
  let ingress := pyOr (dictGet remote_data "ingress-address")
    (dictGet remote_data "private-address")
  match dictGetItem remote_data "port" with
  | .error e => .error e
  | .ok port =>
  match dictGetItem remote_data "hostname" with
  | .error e => .error e
  | .ok hostname =>
  match dictGetItem remote_data "model" with
  | .error e => .error e
  | .ok mdl =>
      .ok { port := port, hostname := hostname, model := mdl, ingress_ip := ingress }

/-- All remote units across the given relations, relation order first,
then unit order within each relation. -/
def allRemoteUnits : List Relation → List PyDict
  | [] => []
  | r :: rest => r.remoteUnits ++ allRemoteUnits rest

/-- `SoftwareInventoryConsumer.all_exporters`: the nested loop over
relations and their remote units, appending one `ExporterConfig` per
unit into a single list; a `KeyError` on any unit aborts the whole call
with no partial result, which is exactly the fail-fast map over the
flattened unit list. -/
def all_exporters (provider_relations : List Relation) :
    Except String (List ExporterConfig) :=
  mapME exporterOfUnit (allRemoteUnits provider_relations)

/-! ## The charm (`src/charm.py`) -/

/-- A YAML document as rendered by `yaml.safe_dump` of a Python value:
strings, integers or string-keyed mappings. -/
inductive Yaml where
  | str (s : String)
  | int (n : Int)
  | map (entries : List (String × Yaml))

/-- `SoftwareInventoryExporterCharm.EXPORTER_SNAP_NAME`. -/
def EXPORTER_SNAP_NAME : String := "software-inventory-exporter"

/-- `SoftwareInventoryExporterCharm.EXPORTER_CONF`. -/
def EXPORTER_CONF : String :=
  "/var/snap/" ++ EXPORTER_SNAP_NAME ++ "/current/config.yaml"

/-- `SoftwareInventoryExporterCharm.EXPORTER_SERVICE`. -/
def EXPORTER_SERVICE : String :=
  "snap." ++ EXPORTER_SNAP_NAME ++ "." ++ EXPORTER_SNAP_NAME ++ ".service"

/-- The document built by `render_exporter_config`:
`{"settings": {"bind_address": ..., "port": int(...)}}`. -/
def exporterDoc (env : Env) : Yaml :=
  Yaml.map [("settings",
    Yaml.map [("bind_address", Yaml.str env.bind_address),
              ("port", Yaml.int env.port)])]

/-- The unit status values this charm sets (`ActiveStatus`,
`BlockedStatus`), plus the runtime's initial status before any handler
has run. -/
inductive UnitStatus where
  | active (msg : String)
  | blocked (msg : String)
  | maintenance
deriving DecidableEq, Repr

/-- The `snap.SnapState` enum values used here. -/
inductive SnapState where
  | present
  | absent
  | latest
deriving DecidableEq, Repr

/-- How the exporter snap was last installed: `snap.install_local(path,
dangerous=..., classic=...)` or `snap.ensure(snap_names=..., classic=...,
state=...)` from the store. -/
inductive InstallSource where
  | localSnap (path : String) (dangerous classic : Bool)
  | store (name : String) (classic : Bool) (state : SnapState)
deriving DecidableEq, Repr

/-- The primitive side effects a handler performs, in program order. -/
inductive Action where
  | installLocal (path : String) (dangerous classic : Bool)
  | snapEnsure (name : String) (classic : Bool) (state : SnapState)
  | writeConfigFile (doc : Yaml)
  | restartService
  | publish (port bound_address : String)
  | assess

/-- The machine-visible state a handler acts on: the exporter's config
file, the configuration the running service last loaded, the service's
"active" flag and its recent log lines (both owned by the external
service, read-only to the charm), the unit status, the charm's error
log, how the snap was installed, and the provider with its relations. -/
structure MachineState where
  configFile : Option Yaml
  serviceConfig : Option Yaml
  serviceActive : Bool
  serviceLogs : List String
  unitStatus : UnitStatus
  errorLog : List String
  installed : Option InstallSource
  pw : ProviderWorld

/-- The last `n` elements of a list: `snap.logs(num_lines=n)` returns the
trailing `n` lines of the service's log. -/
def lastN (n : Nat) (l : List String) : List String :=
  l.drop (l.length - n)

/-- `SoftwareInventoryExporterCharm.snap_path`: the attached resource's
path, or `None` when `fetch` raised `ModelError` or the file is empty
(`not os.path.getsize(p) > 0`). -/
def snap_path (env : Env) : Option String :=
  match env.resource with
  | none => none
  | some (p, size) => if size > 0 then some p else none

/-- `is_exporter_running`: the service's `active` flag. -/
def is_exporter_running (st : MachineState) : Bool :=
  st.serviceActive

/-- The message `assess_status` logs at error level when the service is
not running: the service name and the last 20 lines of its log. -/
def assessLogMsg (st : MachineState) : String :=
  "Exporter service " ++ EXPORTER_SERVICE
    ++ " is not running. Latest logs from the service:\n"
    ++ String.intercalate "\n" (lastN 20 st.serviceLogs)

/-- `SoftwareInventoryExporterCharm.assess_status`: set the unit status
from the service's current `active` flag, logging diagnostics in the
blocked case. -/
def assess_status (st : MachineState) : MachineState :=
  if is_exporter_running st then
    { st with unitStatus := .active "Unit is ready." }
  else
    { st with
        unitStatus := .blocked "Exporter service is not running."
        errorLog := st.errorLog ++ [assessLogMsg st] }

/-- `render_exporter_config`: write the rendered document to
`EXPORTER_CONF`, overwriting it (mode `"w"`). -/
def render_exporter_config (env : Env) : List Action :=
  [.writeConfigFile (exporterDoc env)]

/-- `reconfigure_exporter`: render the config, then restart the
service. -/
def reconfigure_exporter (env : Env) : List Action :=
  render_exporter_config env ++ [.restartService]

/-- `_on_config_changed`: read `port` and `bind_address` from the
configuration, reconfigure the exporter, push the new values to every
related consumer (`str(port)`), then assess the unit status. -/
def _on_config_changed (env : Env) : List Action :=
  let port := env.port
  let address := env.bind_address
  reconfigure_exporter env ++ [.publish (toString port) address] ++ [.assess]

/-- `_on_install` (also the `upgrade_charm` handler): install from the
local resource when `snap_path` is set, else ensure the snap from the
store at `Latest`; then reconfigure and assess. -/
def _on_install (env : Env) : List Action :=
  (match snap_path env with
   | some path => [.installLocal path true true]
   | none => [.snapEnsure EXPORTER_SNAP_NAME true .latest])
  ++ reconfigure_exporter env ++ [.assess]

/-- `_on_update_status`: just reassess the unit status. -/
def _on_update_status : List Action :=
  [.assess]

/-- Interpret one action against the machine state.  Restarting makes
the service reload its configuration file; whether the restarted
process comes up healthy is the external service's business, so the
`active` flag is not touched by any action. -/
def applyAction (env : Env) (st : MachineState) : Action → MachineState
  | .installLocal path dangerous classic =>
      { st with installed := some (.localSnap path dangerous classic) }
  | .snapEnsure name classic state =>
      { st with installed := some (.store name classic state) }
  | .writeConfigFile doc => { st with configFile := some doc }
  | .restartService => { st with serviceConfig := st.configFile }
  | .publish port bound_address =>
      { st with pw := update_consumers env port bound_address st.pw }
  | .assess => assess_status st

/-- Run a handler's actions in order. -/
def run (env : Env) (st : MachineState) (acts : List Action) : MachineState :=
  acts.foldl (applyAction env) st

/-! ## Dictionary lemmas -/

theorem dictGet_dictSet (d : PyDict) (k v k') :
    dictGet (dictSet d k v) k' = if k' = k then some v else dictGet d k' := by
  induction d with
  | nil =>
      by_cases h : k' = k
      · simp [dictSet, dictGet, h]
      · simp [dictSet, dictGet, h, Ne.symm h]
  | cons hd tl ih =>
      obtain ⟨k0, v0⟩ := hd
      by_cases h0 : k0 = k
      · subst h0
        by_cases h : k' = k0
        · simp [dictSet, dictGet, h]
        · simp [dictSet, dictGet, h, Ne.symm h]
      · by_cases h : k' = k0
        · subst h
          simp [dictSet, dictGet, h0, Ne.symm h0]
        · simp [dictSet, dictGet, h0, h, Ne.symm h, ih]

theorem dictGet_dictSet_self (d : PyDict) (k v) :
    dictGet (dictSet d k v) k = some v := by
  rw [dictGet_dictSet]
  simp

theorem dictGet_dictSet_ne (d : PyDict) (k v k') (h : k' ≠ k) :
    dictGet (dictSet d k v) k' = dictGet d k' := by
  rw [dictGet_dictSet]
  simp [h]

theorem isSome_dictGet_dictSet (d : PyDict) (j w k)
    (h : (dictGet d k).isSome) : (dictGet (dictSet d j w) k).isSome := by
  rw [dictGet_dictSet]
  by_cases hk : k = j
  · simp [hk]
  · simpa [hk] using h

theorem dictSet_dictSet_same (d : PyDict) (k v v') :
    dictSet (dictSet d k v) k v' = dictSet d k v' := by
  induction d with
  | nil => simp [dictSet]
  | cons hd tl ih =>
      obtain ⟨k0, v0⟩ := hd
      by_cases h0 : k0 = k
      · subst h0
        simp [dictSet]
      · simp [dictSet, h0, ih]

theorem dictSet_comm_of_isSome (d : PyDict) (j w k v)
    (hk : (dictGet d k).isSome) (hne : j ≠ k) :
    dictSet (dictSet d j w) k v = dictSet (dictSet d k v) j w := by
  induction d with
  | nil => simp [dictGet] at hk
  | cons hd tl ih =>
      obtain ⟨k0, v0⟩ := hd
      by_cases hj : k0 = j
      · subst hj
        simp [dictSet, hne, Ne.symm hne]
      · by_cases hkk : k0 = k
        · subst hkk
          simp [dictSet, hj]
        · have hk' : (dictGet tl k).isSome := by
            simpa [dictGet, hkk] using hk
          simp [dictSet, hj, hkk, ih hk']

theorem not_mem_dictKeys_head_tail {t : PyDict} {j w k}
    (h : k ∉ dictKeys ((j, w) :: t)) : k ≠ j ∧ k ∉ dictKeys t := by
  simp only [dictKeys, List.map_cons, List.mem_cons, not_or] at h
  exact ⟨h.1, h.2⟩

theorem dictSetMany_dictSet_comm (t : PyDict) (d : PyDict) (k v)
    (hk : (dictGet d k).isSome) (hnot : k ∉ dictKeys t) :
    dictSet (dictSetMany d t) k v = dictSetMany (dictSet d k v) t := by
  induction t generalizing d with
  | nil => simp [dictSetMany]
  | cons hd tl ih =>
      obtain ⟨j, w⟩ := hd
      obtain ⟨hjk, hnot1⟩ := not_mem_dictKeys_head_tail hnot
      have hk1 : (dictGet (dictSet d j w) k).isSome :=
        isSome_dictGet_dictSet d j w k hk
      calc dictSet (dictSetMany d ((j, w) :: tl)) k v
          = dictSet (dictSetMany (dictSet d j w) tl) k v := by
            simp [dictSetMany]
        _ = dictSetMany (dictSet (dictSet d j w) k v) tl := ih (dictSet d j w) hk1 hnot1
        _ = dictSetMany (dictSet (dictSet d k v) j w) tl := by
            rw [dictSet_comm_of_isSome d j w k v hk (fun h => hjk h.symm)]
        _ = dictSetMany (dictSet d k v) ((j, w) :: tl) := by
            simp [dictSetMany]

theorem dictSetMany_absorb (kvs kvs' : PyDict) (d : PyDict)
    (hkeys : dictKeys kvs = dictKeys kvs') (hnd : (dictKeys kvs).Nodup) :
    dictSetMany (dictSetMany d kvs) kvs' = dictSetMany d kvs' := by
  induction kvs generalizing kvs' d with
  | nil =>
      have : kvs' = [] := by
        cases kvs' with
        | nil => rfl
        | cons hd tl => simp [dictKeys] at hkeys
      subst this
      simp [dictSetMany]
  | cons hd tl ih =>
      obtain ⟨k, v⟩ := hd
      cases kvs' with
      | nil => simp [dictKeys] at hkeys
      | cons hd' tl' =>
          obtain ⟨k', v'⟩ := hd'
          obtain ⟨hk1, htl⟩ : k = k' ∧ dictKeys tl = dictKeys tl' := by
            simpa only [dictKeys, List.map_cons, List.cons.injEq] using hkeys
          subst hk1
          have hmem : (dictGet (dictSet d k v) k).isSome := by
            rw [dictGet_dictSet_self]
            rfl
          have hknot : k ∉ dictKeys tl := by
            simp only [dictKeys, List.map_cons, List.nodup_cons] at hnd
            exact hnd.1
          have hndtl : (dictKeys tl).Nodup := by
            simp only [dictKeys, List.map_cons, List.nodup_cons] at hnd
            exact hnd.2
          calc dictSetMany (dictSetMany d ((k, v) :: tl)) ((k, v') :: tl')
              = dictSetMany (dictSet (dictSetMany (dictSet d k v) tl) k v') tl' := by
                simp [dictSetMany]
            _ = dictSetMany (dictSetMany (dictSet (dictSet d k v) k v') tl) tl' := by
                rw [dictSetMany_dictSet_comm tl (dictSet d k v) k v' hmem hknot]
            _ = dictSetMany (dictSetMany (dictSet d k v') tl) tl' := by
                rw [dictSet_dictSet_same]
            _ = dictSetMany (dictSet d k v') tl' := ih tl' (dictSet d k v') htl hndtl
            _ = dictSetMany d ((k, v') :: tl') := by simp [dictSetMany]

/-! ## Provider lemmas -/

/-- The dict published by `_update_relation_data` is the `asdict` of a
config whose `ingress_ip` is the dataclass default, i.e. four
string-valued pairs. -/
theorem dictUpdate_asdict (d : PyDict) (h p m : String) :
    dictUpdate d (ExporterConfig.asdict { hostname := h, port := p, model := m }) =
      dictSetMany d [("hostname", h), ("port", p), ("model", m), ("ingress_ip", "")] := by
  rfl

theorem dictGet_publish (d : PyDict) (h p m k : String) :
    dictGet (dictUpdate d (ExporterConfig.asdict { hostname := h, port := p, model := m })) k =
      if k = "ingress_ip" then some ""
      else if k = "model" then some m
      else if k = "port" then some p
      else if k = "hostname" then some h
      else dictGet d k := by
  rw [dictUpdate_asdict]
  show dictGet (dictSet (dictSet (dictSet (dictSet d "hostname" h) "port" p) "model" m)
      "ingress_ip" "") k = _
  rw [dictGet_dictSet, dictGet_dictSet, dictGet_dictSet, dictGet_dictSet]

/-- Republishing overwrites: a second `_update_relation_data` (with any
newer provider state and environment) yields the same bucket as if only
the second publish had happened. -/
theorem _update_relation_data_collapse (env env' : Env) (s s' : ProviderState)
    (r : Relation) :
    _update_relation_data env' s' (_update_relation_data env s r) =
      _update_relation_data env' s' r := by
  simp only [_update_relation_data]
  congr 1
  rw [dictUpdate_asdict, dictUpdate_asdict, dictUpdate_asdict]
  refine dictSetMany_absorb _ _ _ rfl ?_
  show (dictKeys [("hostname", _), ("port", _), ("model", _), ("ingress_ip", "")]).Nodup
  simp [dictKeys]

theorem update_consumers_collapse (env env' : Env) (p a p' a' : String)
    (w : ProviderWorld) :
    update_consumers env' p' a' (update_consumers env p a w) =
      update_consumers env' p' a' w := by
  simp only [update_consumers, List.map_map]
  congr 1
  have hf : (_update_relation_data env' { _port := p', _bound_address := a'} ∘
      _update_relation_data env { _port := p, _bound_address := a }) =
      _update_relation_data env' { _port := p', _bound_address := a' } := by
    funext r
    exact _update_relation_data_collapse env env' _ _ r
  exact congrArg (fun f => List.map f w.relations) hf

theorem update_consumers_runCalls (env : Env) (p a : String) :
    ∀ (calls : List (String × String)) (w : ProviderWorld),
      update_consumers env p a (runCalls env w calls) = update_consumers env p a w := by
  intro calls
  induction calls with
  | nil => intro w; rfl
  | cons c rest ih =>
      intro w
      have hstep : runCalls env w (c :: rest) =
          runCalls env (update_consumers env c.1 c.2 w) rest := rfl
      rw [hstep, ih, update_consumers_collapse]

/-! ## Claim C1 -/

theorem dictGet_dictRemove (d : PyDict) (k k' : String) :
    dictGet (dictRemove d k) k' = if k' = k then none else dictGet d k' := by
  induction d with
  | nil =>
      by_cases h : k' = k <;> simp [dictRemove, dictGet, h]
  | cons hd tl ih =>
      obtain ⟨k0, v0⟩ := hd
      by_cases h0 : k0 = k
      · subst h0
        by_cases h : k' = k0
        · subst h
          simp [dictRemove, dictGet, ih]
        · simp [dictRemove, dictGet, h, Ne.symm h, ih]
      · by_cases h : k' = k0
        · subst h
          simp [dictRemove, dictGet, h0]
        · simp [dictRemove, dictGet, h0, Ne.symm h, ih]

/-- When the published hostname, port and model are non-empty strings,
the transport write of the publisher's `asdict` stores those three and
removes `ingress_ip` (whose written value is `""`). -/
theorem databag_publish_eq (d : PyDict) (h p m : String)
    (hh : h ≠ "") (hp : p ≠ "") (hm : m ≠ "") :
    databagUpdate d (ExporterConfig.asdict { hostname := h, port := p, model := m }) =
      dictRemove (dictSet (dictSet (dictSet d "hostname" h) "port" p) "model" m)
        "ingress_ip" := by
  simp [databagUpdate, ExporterConfig.asdict, databagSet, hh, hp, hm]

theorem dictGet_databag_publish (d : PyDict) (h p m k : String)
    (hh : h ≠ "") (hp : p ≠ "") (hm : m ≠ "") :
    dictGet (databagUpdate d
        (ExporterConfig.asdict { hostname := h, port := p, model := m })) k =
      if k = "ingress_ip" then none
      else if k = "model" then some m
      else if k = "port" then some p
      else if k = "hostname" then some h
      else dictGet d k := by
  rw [databag_publish_eq d h p m hh hp hm, dictGet_dictRemove, dictGet_dictSet,
    dictGet_dictSet, dictGet_dictSet]

theorem dictKeys_databag_publish_empty (h p m : String)
    (hh : h ≠ "") (hp : p ≠ "") (hm : m ≠ "") :
    dictKeys (databagUpdate []
        (ExporterConfig.asdict { hostname := h, port := p, model := m })) =
      ["hostname", "port", "model"] := by
  rw [databag_publish_eq [] h p m hh hp hm]
  simp [dictSet, dictRemove, dictKeys]

/-- **C1**.  Every publish writes exactly the three keys `hostname`,
`port` and `model` into the local unit's bucket, and no ingress key is
ever written: the `ingress_ip` field is serialized by `asdict` as `""`,
which the relation-data transport treats as key removal, so the
published bucket never holds it; every other key is left untouched, and
a publish into an empty bucket yields exactly the three keys.  The
hypotheses record that the published values are non-empty on every real
path: `socket.gethostname()` is non-empty, the port is `str` of the
integer config value, and model names are non-empty. -/
theorem update_relation_data_writes_exactly_three_keys (env : Env)
    (s : ProviderState) (r : Relation) (hh : env.hostname ≠ "")
    (hp : s._port ≠ "") (hm : env.modelName ≠ "") :
    (∀ k, dictGet ((_update_relation_data_databag env s r).localData) k =
      if k = "ingress_ip" then none
      else if k = "model" then some env.modelName
      else if k = "port" then some s._port
      else if k = "hostname" then some env.hostname
      else dictGet r.localData k) ∧
    dictKeys ((_update_relation_data_databag env s
        { localData := [], remoteUnits := r.remoteUnits }).localData) =
      ["hostname", "port", "model"] := by
  constructor
  · intro k
    simp only [_update_relation_data_databag]
    exact dictGet_databag_publish r.localData env.hostname s._port env.modelName k hh hp hm
  · simp only [_update_relation_data_databag]
    exact dictKeys_databag_publish_empty env.hostname s._port env.modelName hh hp hm

/-- A concrete publish into an empty bucket under the transport write
semantics. -/
def examplePublished : Relation :=
  _update_relation_data_databag
    { hostname := "host-0", modelName := "test-model", bind_address := "0.0.0.0",
      port := 8675, resource := none }
    { _port := "8675", _bound_address := "0.0.0.0" }
    { localData := [], remoteUnits := [] }

theorem update_relation_data_writes_exactly_three_keys_witness :
    dictKeys examplePublished.localData = ["hostname", "port", "model"] ∧
    dictGet examplePublished.localData "ingress_ip" = none := by
  have h := update_relation_data_writes_exactly_three_keys
    { hostname := "host-0", modelName := "test-model", bind_address := "0.0.0.0",
      port := 8675, resource := none }
    { _port := "8675", _bound_address := "0.0.0.0" }
    { localData := [], remoteUnits := [] }
    (by decide) (by decide) (by decide)
  exact ⟨h.2, by simpa using h.1 "ingress_ip"⟩

/-! ## Claim C3 -/

/-- **C3**.  For every sequence of `update_consumers(p, a)` calls, the
provider state and the data published into every currently-related
relation afterwards are exactly those of the last call alone — publishing
overwrites rather than accumulates — and calling `update_consumers` twice
with identical arguments produces identical published data
(idempotence). -/
theorem update_consumers_last_write_wins (env : Env) (w : ProviderWorld)
    (calls : List (String × String)) (p a : String) :
    runCalls env w (calls ++ [(p, a)]) = update_consumers env p a w ∧
    update_consumers env p a (update_consumers env p a w) =
      update_consumers env p a w := by
  constructor
  · rw [runCalls, List.foldl_append]
    exact update_consumers_runCalls env p a calls w
  · exact update_consumers_collapse env env p a p a w

/-! ## Consumer lemmas -/

theorem mapME_ok_length {α β : Type} (f : α → Except String β) :
    ∀ (xs : List α) (ys : List β), mapME f xs = .ok ys → ys.length = xs.length := by
  intro xs
  induction xs with
  | nil =>
      intro ys h
      simp [mapME] at h
      simp [← h]
  | cons x xs ih =>
      intro ys h
      cases hfx : f x with
      | error e => simp [mapME, hfx] at h
      | ok y =>
          cases hxs : mapME f xs with
          | error e => simp [mapME, hfx, hxs] at h
          | ok ys' =>
              simp [mapME, hfx, hxs] at h
              simp [← h, ih ys' hxs]

theorem mapME_ok_get? {α β : Type} (f : α → Except String β) :
    ∀ (xs : List α) (ys : List β), mapME f xs = .ok ys →
      ∀ (i : Nat) (x : α), xs.get? i = some x →
        ∃ y, f x = .ok y ∧ ys.get? i = some y := by
  intro xs
  induction xs with
  | nil =>
      intro ys h i x hx
      simp at hx
  | cons x0 xs ih =>
      intro ys h i x hx
      cases hfx : f x0 with
      | error e => simp [mapME, hfx] at h
      | ok y =>
          cases hxs : mapME f xs with
          | error e => simp [mapME, hfx, hxs] at h
          | ok ys' =>
              simp [mapME, hfx, hxs] at h
              cases i with
              | zero =>
                  rw [List.get?_cons_zero] at hx
                  injection hx with hx
                  subst hx
                  refine ⟨y, hfx, ?_⟩
                  rw [← h, List.get?_cons_zero]
              | succ j =>
                  rw [List.get?_cons_succ] at hx
                  obtain ⟨y', hy', hget⟩ := ih ys' hxs j x hx
                  refine ⟨y', hy', ?_⟩
                  rw [← h, List.get?_cons_succ]
                  exact hget

theorem mapME_ok_of_mem {α β : Type} (f : α → Except String β) :
    ∀ (xs : List α) (ys : List β), mapME f xs = .ok ys →
      ∀ x, x ∈ xs → ∃ y, f x = .ok y := by
  intro xs
  induction xs with
  | nil =>
      intro ys h x hx
      simp at hx
  | cons x0 xs ih =>
      intro ys h x hx
      cases hfx : f x0 with
      | error e => simp [mapME, hfx] at h
      | ok y =>
          cases hxs : mapME f xs with
          | error e => simp [mapME, hfx, hxs] at h
          | ok ys' =>
              rcases List.mem_cons.mp hx with rfl | hmem
              · exact ⟨y, hfx⟩
              · exact ih ys' hxs x hmem

theorem length_allRemoteUnits (rs : List Relation) :
    (allRemoteUnits rs).length = (rs.map (fun r => r.remoteUnits.length)).sum := by
  induction rs with
  | nil => rfl
  | cons r rest ih => simp [allRemoteUnits, ih]

/-- A successfully read unit yields an `ExporterConfig` whose
`ingress_ip` is `ingress-address` with Python-`or` fallback to
`private-address`. -/
theorem exporterOfUnit_ok_ingress (b : PyDict) (c : ExporterConfig)
    (h : exporterOfUnit b = .ok c) :
    c.ingress_ip = pyOr (dictGet b "ingress-address") (dictGet b "private-address") := by
  simp only [exporterOfUnit, dictGetItem] at h
  rcases hp : dictGet b "port" with _ | vp
  · simp [hp] at h
  · rcases hh : dictGet b "hostname" with _ | vh
    · simp [hp, hh] at h
    · rcases hm : dictGet b "model" with _ | vm
      · simp [hp, hh, hm] at h
      · simp only [hp, hh, hm] at h
        injection h with h2
        rw [← h2]

/-- A unit bucket missing any of the required keys makes the per-unit
read raise a `KeyError`. -/
theorem exporterOfUnit_error_of_missing (u : PyDict)
    (hmiss : dictGet u "hostname" = none ∨ dictGet u "port" = none ∨
      dictGet u "model" = none) :
    ∃ e, exporterOfUnit u = .error e := by
  rcases hp : dictGet u "port" with _ | vp
  · exact ⟨"port", by simp only [exporterOfUnit, dictGetItem]; simp [hp]⟩
  · rcases hh : dictGet u "hostname" with _ | vh
    · exact ⟨"hostname", by simp only [exporterOfUnit, dictGetItem]; simp [hp, hh]⟩
    · rcases hm : dictGet u "model" with _ | vm
      · exact ⟨"model", by simp only [exporterOfUnit, dictGetItem]; simp [hp, hh, hm]⟩
      · rcases hmiss with h | h | h <;> simp_all

/-! ## Claim C5 -/

/-- **C5**.  A successful `all_exporters` call returns exactly one
`ExporterConfig` per remote unit across all relations of the configured
name (its length is the sum of the relations' remote-unit counts), and
position `i` of the result is the translation of position `i` of the
units enumerated in relation order then unit order — so the sequence is
neither sorted nor deduplicated. -/
theorem all_exporters_one_per_unit (relations : List Relation)
    (configs : List ExporterConfig)
    (h : all_exporters relations = .ok configs) :
    configs.length = (relations.map (fun r => r.remoteUnits.length)).sum ∧
    ∀ (i : Nat) (u : PyDict), (allRemoteUnits relations).get? i = some u →
      ∃ c, exporterOfUnit u = .ok c ∧ configs.get? i = some c := by
  constructor
  · rw [← length_allRemoteUnits]
    exact mapME_ok_length exporterOfUnit (allRemoteUnits relations) configs h
  · intro i u hu
    exact mapME_ok_get? exporterOfUnit (allRemoteUnits relations) configs h i u hu

/-- A remote unit bucket holding every key an exporter publishes. -/
def exampleUnit (n : Nat) : PyDict :=
  [("hostname", "host-" ++ toString n), ("port", "5000"),
   ("model", "test-model"), ("ingress_ip", ""),
   ("private-address", "10.0.0." ++ toString n)]

/-- A relation with two remote exporter units. -/
def exampleRelA : Relation :=
  { localData := [], remoteUnits := [exampleUnit 1, exampleUnit 2] }

/-- A relation with three remote exporter units. -/
def exampleRelB : Relation :=
  { localData := [], remoteUnits := [exampleUnit 3, exampleUnit 4, exampleUnit 5] }

/-- The configs `all_exporters` produces for `[exampleRelA, exampleRelB]`. -/
def exampleConfigs : List ExporterConfig :=
  [⟨"host-1", "5000", "test-model", some "10.0.0.1"⟩,
   ⟨"host-2", "5000", "test-model", some "10.0.0.2"⟩,
   ⟨"host-3", "5000", "test-model", some "10.0.0.3"⟩,
   ⟨"host-4", "5000", "test-model", some "10.0.0.4"⟩,
   ⟨"host-5", "5000", "test-model", some "10.0.0.5"⟩]

theorem all_exporters_one_per_unit_witness :
    exampleConfigs.length =
      ([exampleRelA, exampleRelB].map (fun r => r.remoteUnits.length)).sum ∧
    ([exampleRelA, exampleRelB].map (fun r => r.remoteUnits.length)).sum = 5 :=
  ⟨(all_exporters_one_per_unit [exampleRelA, exampleRelB] exampleConfigs
      (by decide)).1,
   by decide⟩

/-! ## Claim C6 -/

/-- **C6**.  Ingress resolution: a remote unit bucket with
`ingress-address = "10.0.0.5"` produces `ingress_ip = "10.0.0.5"`; with
`ingress-address` absent and `private-address = "10.0.0.9"`, it produces
`ingress_ip = "10.0.0.9"`. -/
theorem all_exporters_ingress_resolution (b : PyDict) :
    (dictGet b "ingress-address" = some "10.0.0.5" →
      ∀ c, exporterOfUnit b = .ok c → c.ingress_ip = some "10.0.0.5") ∧
    (dictGet b "ingress-address" = none →
      dictGet b "private-address" = some "10.0.0.9" →
      ∀ c, exporterOfUnit b = .ok c → c.ingress_ip = some "10.0.0.9") := by
  constructor
  · intro h c hc
    rw [exporterOfUnit_ok_ingress b c hc, h]
    simp [pyOr]
  · intro h1 h2 c hc
    rw [exporterOfUnit_ok_ingress b c hc, h1, h2]
    simp [pyOr]

/-- A bucket carrying an explicit `ingress-address`. -/
def exampleUnitIngress : PyDict :=
  [("hostname", "host-a"), ("port", "5000"), ("model", "m"),
   ("ingress-address", "10.0.0.5"), ("private-address", "10.0.0.7")]

/-- A bucket with no `ingress-address` but a `private-address`. -/
def exampleUnitPrivate : PyDict :=
  [("hostname", "host-b"), ("port", "5000"), ("model", "m"),
   ("private-address", "10.0.0.9")]

theorem all_exporters_ingress_resolution_witness :
    (⟨"host-a", "5000", "m", some "10.0.0.5"⟩ : ExporterConfig).ingress_ip =
      some "10.0.0.5" ∧
    (⟨"host-b", "5000", "m", some "10.0.0.9"⟩ : ExporterConfig).ingress_ip =
      some "10.0.0.9" :=
  ⟨(all_exporters_ingress_resolution exampleUnitIngress).1 (by decide)
      ⟨"host-a", "5000", "m", some "10.0.0.5"⟩ (by decide),
   (all_exporters_ingress_resolution exampleUnitPrivate).2 (by decide) (by decide)
      ⟨"host-b", "5000", "m", some "10.0.0.9"⟩ (by decide)⟩

/-! ## Claim C9 -/

/-- **C9**.  If any remote unit bucket misses one of the required keys
`hostname`, `port` or `model`, the whole `all_exporters` call fails with
a lookup error: the malformed peer is not skipped, and no partial `.ok`
sequence is returned. -/
theorem all_exporters_missing_key_fatal (relations : List Relation) (u : PyDict)
    (hmem : u ∈ allRemoteUnits relations)
    (hmiss : dictGet u "hostname" = none ∨ dictGet u "port" = none ∨
      dictGet u "model" = none) :
    ∃ e, all_exporters relations = .error e := by
  obtain ⟨e0, he0⟩ := exporterOfUnit_error_of_missing u hmiss
  cases h : all_exporters relations with
  | error e => exact ⟨e, rfl⟩
  | ok cs =>
      obtain ⟨c, hc⟩ := mapME_ok_of_mem exporterOfUnit (allRemoteUnits relations) cs h u hmem
      rw [he0] at hc
      cases hc

/-- A malformed bucket: `port` is present but `hostname` and `model` are
missing. -/
def exampleBadUnit : PyDict :=
  [("port", "5000"), ("private-address", "10.0.0.3")]

theorem all_exporters_missing_key_fatal_witness :
    ∃ e, all_exporters
        [{ localData := [], remoteUnits := [exampleUnit 1, exampleBadUnit] }] =
      .error e :=
  all_exporters_missing_key_fatal
    [{ localData := [], remoteUnits := [exampleUnit 1, exampleBadUnit] }]
    exampleBadUnit (by decide) (by decide)

/-! ## Claim C10 -/

/-- **C10**.  Ingress resolution falls back to `private-address` not only
when `ingress-address` is absent but also when it is present with an
empty-string value (Python `or` treats `""` as falsy); and when both
keys are absent the produced `ingress_ip` is Python `None` (`none`),
which differs from the dataclass default `""` (`some ""`). -/
theorem ingress_empty_and_absent_fallback (b : PyDict) :
    (dictGet b "ingress-address" = some "" →
      ∀ c, exporterOfUnit b = .ok c →
        c.ingress_ip = dictGet b "private-address") ∧
    (dictGet b "ingress-address" = none → dictGet b "private-address" = none →
      ∀ c, exporterOfUnit b = .ok c →
        c.ingress_ip = none ∧
        c.ingress_ip ≠ ExporterConfig.ingress_ip { hostname := c.hostname, port := c.port, model := c.model }) := by
  constructor
  · intro h c hc
    rw [exporterOfUnit_ok_ingress b c hc, h]
    simp [pyOr]
  · intro h1 h2 c hc
    rw [exporterOfUnit_ok_ingress b c hc, h1, h2]
    simp [pyOr]

/-- A bucket whose `ingress-address` is present but empty. -/
def exampleUnitEmptyIngress : PyDict :=
  [("hostname", "host-c"), ("port", "5000"), ("model", "m"),
   ("ingress-address", ""), ("private-address", "10.0.0.9")]

/-- A bucket with neither `ingress-address` nor `private-address`. -/
def exampleUnitNoAddress : PyDict :=
  [("hostname", "host-d"), ("port", "5000"), ("model", "m")]

theorem ingress_empty_and_absent_fallback_witness :
    (⟨"host-c", "5000", "m", some "10.0.0.9"⟩ : ExporterConfig).ingress_ip =
      dictGet exampleUnitEmptyIngress "private-address" ∧
    (⟨"host-d", "5000", "m", none⟩ : ExporterConfig).ingress_ip = none :=
  ⟨(ingress_empty_and_absent_fallback exampleUnitEmptyIngress).1 (by decide)
      ⟨"host-c", "5000", "m", some "10.0.0.9"⟩ (by decide),
   ((ingress_empty_and_absent_fallback exampleUnitNoAddress).2 (by decide)
      (by decide) ⟨"host-d", "5000", "m", none⟩ (by decide)).1⟩

/-! ## Charm lemmas -/

theorem assess_status_pw (st : MachineState) : (assess_status st).pw = st.pw := by
  unfold assess_status
  split <;> rfl

theorem assess_status_configFile (st : MachineState) :
    (assess_status st).configFile = st.configFile := by
  unfold assess_status
  split <;> rfl

theorem assess_status_serviceConfig (st : MachineState) :
    (assess_status st).serviceConfig = st.serviceConfig := by
  unfold assess_status
  split <;> rfl

theorem dictGet_update_relation_data (env : Env) (s : ProviderState) (r : Relation) :
    dictGet ((_update_relation_data env s r).localData) "port" = some s._port ∧
    dictGet ((_update_relation_data env s r).localData) "model" = some env.modelName ∧
    dictGet ((_update_relation_data env s r).localData) "hostname" = some env.hostname := by
  refine ⟨?_, ?_, ?_⟩ <;>
    · simp only [_update_relation_data]
      rw [dictGet_publish]
      simp

/-! ## Claim C2 -/

/-- **C2**.  After a config-changed event completes, the data published
into every relation, the provider's stored fields, the rendered file and
the running service's loaded configuration all reflect the current
`(bind_address, port, model)`; and at every intermediate point of the
handler, if the relation data has been touched at all then the config
file and the running service already carry the new configuration —
rendering and restart happen before the republish, so no peer can
observe the new port while the service still runs the old one. -/
theorem config_changed_no_stale_window (env : Env) (st : MachineState) :
    (∀ r, r ∈ (run env st (_on_config_changed env)).pw.relations →
      dictGet r.localData "port" = some (toString env.port) ∧
      dictGet r.localData "model" = some env.modelName ∧
      dictGet r.localData "hostname" = some env.hostname) ∧
    (run env st (_on_config_changed env)).pw.provider =
      { _port := toString env.port, _bound_address := env.bind_address } ∧
    (run env st (_on_config_changed env)).configFile = some (exporterDoc env) ∧
    (run env st (_on_config_changed env)).serviceConfig = some (exporterDoc env) ∧
    (∀ i, i ≤ (_on_config_changed env).length →
      (run env st ((_on_config_changed env).take i)).pw.relations ≠ st.pw.relations →
      (run env st ((_on_config_changed env).take i)).configFile = some (exporterDoc env) ∧
      (run env st ((_on_config_changed env).take i)).serviceConfig =
        some (exporterDoc env)) := by
  have hacts : _on_config_changed env =
      [.writeConfigFile (exporterDoc env), .restartService,
       .publish (toString env.port) env.bind_address, .assess] := rfl
  refine ⟨?_, ?_, ?_, ?_, ?_⟩
  · intro r hr
    rw [hacts] at hr
    simp only [run, List.foldl, applyAction, assess_status_pw, update_consumers] at hr
    simp only [List.mem_map] at hr
    obtain ⟨r0, _, hr0⟩ := hr
    rw [← hr0]
    exact dictGet_update_relation_data env _ r0
  · rw [hacts]
    simp only [run, List.foldl, applyAction, assess_status_pw, update_consumers]
  · rw [hacts]
    simp only [run, List.foldl, applyAction, assess_status_configFile]
  · rw [hacts]
    simp only [run, List.foldl, applyAction, assess_status_serviceConfig]
  · intro i hi
    rw [hacts] at hi ⊢
    simp only [List.length_cons, List.length_nil] at hi
    interval_cases i
    · intro h
      simp only [List.take, run, List.foldl] at h
      exact absurd rfl h
    · intro h
      simp only [List.take, run, List.foldl, applyAction] at h
      exact absurd rfl h
    · intro h
      simp only [List.take, run, List.foldl, applyAction] at h
      exact absurd rfl h
    · intro _
      constructor <;> simp only [List.take, run, List.foldl, applyAction]
    · intro _
      constructor <;>
        simp only [List.take, run, List.foldl, applyAction,
          assess_status_configFile, assess_status_serviceConfig]

/-- A sample environment for concrete runs of the handlers. -/
def envExample : Env :=
  { hostname := "host-0", modelName := "model-0", bind_address := "0.0.0.0",
    port := 9100, resource := none }

/-- A sample pre-state with one relation whose local bucket is empty. -/
def stExample : MachineState :=
  { configFile := none, serviceConfig := none, serviceActive := true,
    serviceLogs := [], unitStatus := .maintenance, errorLog := [],
    installed := none,
    pw := { provider := { _port := "8675", _bound_address := "0.0.0.0" },
            relations := [{ localData := [], remoteUnits := [] }] } }

theorem config_changed_no_stale_window_witness :
    dictGet ((_update_relation_data envExample
        { _port := toString envExample.port, _bound_address := envExample.bind_address }
        { localData := [], remoteUnits := [] }).localData) "port" =
      some (toString envExample.port) ∧
    (run envExample stExample (_on_config_changed envExample)).serviceConfig =
      some (exporterDoc envExample) := by
  have h := config_changed_no_stale_window envExample stExample
  refine ⟨?_, h.2.2.2.1⟩
  have hmem : _update_relation_data envExample
      { _port := toString envExample.port, _bound_address := envExample.bind_address }
      { localData := [], remoteUnits := [] } ∈
      (run envExample stExample (_on_config_changed envExample)).pw.relations := by
    decide
  exact (h.1 _ hmem).1

/-! ## Claim C4 -/

/-- **C4**.  `reconfigure_exporter` renders exactly the document
`{settings: {bind_address, port: int(port)}}` — a single top-level key,
the port as an integer — overwriting whatever the config file held
before, and then restarts the service (so the restarted service runs
with exactly that document); nothing else in the state is touched. -/
theorem reconfigure_exporter_renders_and_restarts (env : Env) (st : MachineState) :
    reconfigure_exporter env =
      [.writeConfigFile (exporterDoc env), .restartService] ∧
    run env st (reconfigure_exporter env) =
      { st with
          configFile := some (Yaml.map [("settings",
            Yaml.map [("bind_address", Yaml.str env.bind_address),
                      ("port", Yaml.int env.port)])]),
          serviceConfig := some (Yaml.map [("settings",
            Yaml.map [("bind_address", Yaml.str env.bind_address),
                      ("port", Yaml.int env.port)])]) } := by
  exact ⟨rfl, rfl⟩

/-! ## Claim C7 -/

/-- **C7**.  On install (and upgrade): with no attached resource, or an
attached resource of size zero, the snap is ensured from the store at
`Latest`; with a non-empty attached resource it is installed from the
local file with `dangerous` and `classic` flags; in all cases the
handler then reconfigures the exporter and assesses the status, in that
order. -/
theorem install_source_selection (env : Env) :
    (env.resource = none →
      _on_install env = .snapEnsure EXPORTER_SNAP_NAME true SnapState.latest ::
        (reconfigure_exporter env ++ [Action.assess])) ∧
    (∀ p, env.resource = some (p, 0) →
      _on_install env = .snapEnsure EXPORTER_SNAP_NAME true SnapState.latest ::
        (reconfigure_exporter env ++ [Action.assess])) ∧
    (∀ p n, env.resource = some (p, n) → 0 < n →
      _on_install env = .installLocal p true true ::
        (reconfigure_exporter env ++ [Action.assess])) := by
  refine ⟨?_, ?_, ?_⟩
  · intro h
    simp [_on_install, snap_path, h]
  · intro p h
    simp [_on_install, snap_path, h]
  · intro p n h hn
    simp [_on_install, snap_path, h, hn]

/-- An environment whose attached resource is empty (size 0). -/
def envEmptyResource : Env :=
  { envExample with resource := some ("/path/to/resource", 0) }

/-- An environment with a non-empty attached resource. -/
def envLocalResource : Env :=
  { envExample with resource := some ("/path/to/resource", 100) }

theorem install_source_selection_witness :
    _on_install envEmptyResource =
      .snapEnsure EXPORTER_SNAP_NAME true SnapState.latest ::
        (reconfigure_exporter envEmptyResource ++ [Action.assess]) ∧
    _on_install envLocalResource =
      .installLocal "/path/to/resource" true true ::
        (reconfigure_exporter envLocalResource ++ [Action.assess]) :=
  ⟨(install_source_selection envEmptyResource).2.1 "/path/to/resource" rfl,
   (install_source_selection envLocalResource).2.2 "/path/to/resource" 100 rfl
     (by decide)⟩

/-! ## Claim C8 -/

/-- **C8**.  `assess_status` is a pure observer driven only by the
service's `active` flag: the resulting unit status is `active` when the
flag is true and `blocked` when false (any two states agreeing on the
flag get the same status); it never mutates the service state (flag,
loaded config, logs), the config file, the install record or the
relations; and in the blocked case it appends exactly one error-log
entry carrying the service name and the at-most-20 trailing lines of the
service's log. -/
theorem assess_status_pure_observer (st : MachineState) :
    ((assess_status st).unitStatus =
      if is_exporter_running st then UnitStatus.active "Unit is ready."
      else UnitStatus.blocked "Exporter service is not running.") ∧
    (∀ st' : MachineState, st'.serviceActive = st.serviceActive →
      (assess_status st').unitStatus = (assess_status st).unitStatus) ∧
    (assess_status st).serviceActive = st.serviceActive ∧
    (assess_status st).serviceConfig = st.serviceConfig ∧
    (assess_status st).serviceLogs = st.serviceLogs ∧
    (assess_status st).configFile = st.configFile ∧
    (assess_status st).installed = st.installed ∧
    (assess_status st).pw = st.pw ∧
    (is_exporter_running st = true → (assess_status st).errorLog = st.errorLog) ∧
    (is_exporter_running st = false →
      (assess_status st).errorLog = st.errorLog ++ [assessLogMsg st] ∧
      (lastN 20 st.serviceLogs).length ≤ 20 ∧
      st.serviceLogs.take (st.serviceLogs.length - 20) ++ lastN 20 st.serviceLogs =
        st.serviceLogs) := by
  refine ⟨?_, ?_, ?_, ?_, ?_, ?_, ?_, ?_, ?_, ?_⟩
  · unfold assess_status
    split <;> simp_all
  · intro st' h
    unfold assess_status is_exporter_running
    rw [h]
    split <;> rfl
  · unfold assess_status
    split <;> rfl
  · exact assess_status_serviceConfig st
  · unfold assess_status
    split <;> rfl
  · exact assess_status_configFile st
  · unfold assess_status
    split <;> rfl
  · exact assess_status_pw st
  · intro h
    unfold assess_status
    simp [is_exporter_running] at h ⊢
    simp [h]
  · intro h
    unfold assess_status
    simp [is_exporter_running] at h
    refine ⟨by simp [h, is_exporter_running], ?_, ?_⟩
    · simp only [lastN, List.length_drop]
      omega
    · exact List.take_append_drop _ _

/-- A state whose exporter service is down, with two log lines. -/
def stInactive : MachineState :=
  { configFile := none, serviceConfig := none, serviceActive := false,
    serviceLogs := ["line-1", "line-2"], unitStatus := .maintenance,
    errorLog := [], installed := none,
    pw := { provider := { _port := "8675", _bound_address := "0.0.0.0" },
            relations := [] } }

/-- The same state with a different unit status but the same flag. -/
def stInactiveVariant : MachineState :=
  { stInactive with unitStatus := .active "stale", serviceLogs := [] }

theorem assess_status_pure_observer_witness :
    (assess_status stInactive).unitStatus =
      UnitStatus.blocked "Exporter service is not running." ∧
    (assess_status stInactiveVariant).unitStatus =
      (assess_status stInactive).unitStatus ∧
    (assess_status stInactive).errorLog = [assessLogMsg stInactive] := by
  have h := assess_status_pure_observer stInactive
  refine ⟨?_, ?_, ?_⟩
  · rw [h.1]
    rfl
  · exact h.2.1 stInactiveVariant rfl
  · have h10 := (h.2.2.2.2.2.2.2.2.2 rfl).1
    simpa using h10

end SoftwareInventory
